import Mathlib

set_option maxRecDepth 8192

/-!
Verification development for the SODAX Brand Bible MCP server
(`src/services/brandBible.ts`, `src/tools/brandBible.ts`, `src/constants.ts`).

Modelling conventions.

* JavaScript strings are modelled by Lean `String` (a wrapper around
  `List Char`); the JS string methods used by the source
  (`toLowerCase`, `includes`, `split`, `trim`, `slice`, `startsWith`) are
  embedded as executable char-list functions below.  All inputs handled by
  the pipeline are ordinary text, for which `Char.toLower` /
  `Char.isWhitespace` agree with the JS notions.
* All numbers in this part of the source (scores, counts, timestamps,
  the cache TTL) are non-negative integers, modelled by `Nat`.
  `Date.now()` readings are modelled as explicit `Nat` arguments.
* The two JS regular expressions of the Segmenter are embedded as explicit
  scanning functions (`findSectionMatch`, `findSubsectionMatch`); comments
  at the definitions spell out the correspondence with the regex.
* The module-level mutable cache (`cachedData`, `cacheTimestamp`) is
  modelled by explicit state passing over `CacheState`.
* `axios` fetching and the cheerio HTML walk (`fetchBrandBibleHtml`,
  `extractTextContent`, and the version / lastUpdated regexes over
  `$("body").text()`) are external-collaborator steps: their combined
  outcome is an oracle input `Except String FetchedPage` (an error, or the
  already-normalized page fields).  Everything downstream of that point is
  embedded from the source.
-/

/-- models JS: `needle` is a character-by-character prefix of the second
argument (used for `String.prototype.startsWith` and as a building block of
`includes` / `split`). -/
def charsPrefixOf : List Char → List Char → Bool
  | [], _ => true
  | _ :: _, [] => false
  | p :: ps, c :: cs => p == c && charsPrefixOf ps cs

/-- models JS `haystack.includes(needle)`: some suffix of the haystack starts
with `needle`. -/
def includesChars (needle : List Char) : List Char → Bool
  | [] => needle.isEmpty
  | c :: rest => charsPrefixOf needle (c :: rest) || includesChars needle rest

/-- Fueled scan counting left-to-right non-overlapping occurrences of
`needle`, exactly what JS `haystack.split(needle).length - 1` computes for a
non-empty `needle`.  The fuel is the haystack length (each step consumes at
least one character, so fuel never runs out when started at the length); it
only makes the recursion structural, it does not change the value.  In the
source the split is applied only to query terms, which have length > 2, so
the empty-needle case (where JS `split("")` differs) is unreachable. -/
def countOccChars (needle : List Char) : Nat → List Char → Nat
  | _, [] => 0
  | 0, _ :: _ => 0
  | fuel + 1, c :: rest =>
    if charsPrefixOf needle (c :: rest) then
      1 + countOccChars needle fuel ((c :: rest).drop needle.length)
    else
      countOccChars needle fuel rest

/-- models JS `content.toLowerCase()` (ASCII case folding, which is all the
source's fixed taxonomy titles and keywords need). -/
def lowerString (s : String) : String :=
  String.mk (s.data.map Char.toLower)

/-- models JS `haystack.includes(needle)` at the `String` level. -/
def stringIncludes (haystack needle : String) : Bool :=
  includesChars needle.data haystack.data

/-- models JS `haystack.split(needle).length - 1` (occurrence counting) at the
`String` level; see `countOccChars`. -/
def countOccurrences (haystack needle : String) : Nat :=
  countOccChars needle.data haystack.data.length haystack.data

/-- Fueled worker for `splitOnWhitespace`; the fuel (the input length) only
makes the recursion structural. -/
def splitWsChars : Nat → List Char → List Char → List (List Char)
  | _, acc, [] => [acc.reverse]
  | 0, acc, _ :: _ => [acc.reverse]
  | fuel + 1, acc, c :: rest =>
    if c.isWhitespace then
      acc.reverse :: splitWsChars fuel [] (rest.dropWhile Char.isWhitespace)
    else
      splitWsChars fuel (c :: acc) rest

/-- models JS `query.split(/\s+/)`: split on maximal whitespace runs.  As in
JS, a leading or trailing whitespace run contributes an empty piece and the
empty string splits into `[""]`; the caller filters by length anyway. -/
def splitOnWhitespace (s : String) : List String :=
  (splitWsChars s.data.length [] s.data).map String.mk

/-- models JS `String.prototype.trim`: drop whitespace from both ends. -/
def trimChars (l : List Char) : List Char :=
  ((l.dropWhile Char.isWhitespace).reverse.dropWhile Char.isWhitespace).reverse

/-- `CACHE_TTL_MS` of `src/constants.ts` line 7: `5 * 60 * 1000`. -/
def CACHE_TTL_MS : Nat := 5 * 60 * 1000

/-- `SECTION_NAMES` of `src/constants.ts`, as an association list in the
object's enumeration order (the keys "1".."6" are integer-like, so JS
enumerates them in ascending numeric order, which is also insertion order). -/
def SECTION_NAMES : List (String × String) :=
  [("1", "Brand Essence and Foundations"),
   ("2", "Positioning and Messaging Architecture"),
   ("3", "Verbal Identity"),
   ("4", "Visual Identity"),
   ("5", "Brand Expression Across Channels"),
   ("6", "Brand Use in Partnerships and Integrations")]

/-- `SUBSECTION_NAMES` of `src/constants.ts`, in insertion order (the keys
contain a dot, so they are not integer-like and `Object.entries` keeps
insertion order). -/
def SUBSECTION_NAMES : List (String × String) :=
  [("1.1", "Brand Overview"),
   ("1.2", "Brand Purpose"),
   ("1.3", "Brand Promise"),
   ("1.4", "Brand Values"),
   ("1.5", "Brand Personality"),
   ("1.6", "Core Brand Idea"),
   ("2.1", "Market Context"),
   ("2.2", "Category Definition"),
   ("2.3", "Problem Statement"),
   ("2.4", "SODAX Positioning Statement"),
   ("2.5", "Audience Segmentation"),
   ("2.6", "Messaging Pillars"),
   ("2.7", "Value Propositions by Audience"),
   ("2.8", "Competitive Differentiation"),
   ("2.9", "Proof Points"),
   ("2.10", "Positioning Guardrails"),
   ("3.1", "Tone of Voice"),
   ("3.2", "Writing Principles"),
   ("3.3", "How We Talk to B2B Builders"),
   ("3.4", "How We Talk to B2C Users"),
   ("3.5", "Messaging Do's and Don'ts"),
   ("3.6", "Example Message Patterns"),
   ("4.1", "Logo Usage"),
   ("4.2", "Selected Color Palette"),
   ("4.3", "Typography"),
   ("4.4", "Iconography"),
   ("4.5", "Layout and Composition"),
   ("4.6", "Motion and Animation"),
   ("4.7", "Accessibility Standards"),
   ("5.1", "Shared Principles (All Channels)"),
   ("5.2", "X"),
   ("5.3", "Reddit"),
   ("5.4", "YouTube"),
   ("5.5", "Consistency Rule"),
   ("6.1", "Core Principle"),
   ("6.2", "Partner Announcements"),
   ("6.3", "Visual Presence in Partner Contexts"),
   ("6.4", "Case Studies (External)"),
   ("6.5", "Developer-facing Contexts")]

/-- `brandKeywords` of `calculateRelevance` (brandBible.ts lines 326-330). -/
def brandKeywords : List String :=
  ["logo", "color", "typography", "font", "voice", "tone",
   "message", "audience", "value", "positioning", "visual",
   "identity", "brand", "sodax"]

/-- `calculateRelevance` (brandBible.ts lines 310-341).  For each query term
occurring in the lower-cased content the source runs
`score += 10; score += Math.min(contentLower.split(term).length - 1, 5)`;
afterwards, for each brand keyword related to some query term by the
substring test and itself present in the content, `score += 5`. -/
def calculateRelevance (content : String) (queryTerms : List String) : Nat :=
  let contentLower := lowerString content
  let score := queryTerms.foldl
    (fun score term =>
      if stringIncludes contentLower term then
        score + 10 + min (countOccurrences contentLower term) 5
      else
        score) 0
  brandKeywords.foldl
    (fun score keyword =>
      if queryTerms.any (fun t => stringIncludes t keyword || stringIncludes keyword t) then
        if stringIncludes contentLower keyword then score + 5 else score
      else
        score) score

/-- The keyword half of `calculateRelevance` started from 0 (the source runs
the same fold with the direct-occurrence score as its start value). -/
def keywordScore (content : String) (queryTerms : List String) : Nat :=
  brandKeywords.foldl
    (fun score keyword =>
      if queryTerms.any (fun t => stringIncludes t keyword || stringIncludes keyword t) then
        if stringIncludes (lowerString content) keyword then score + 5 else score
      else
        score) 0

/-- Lookahead `\d+\.\s+[A-Z]` of the section regex (brandBible.ts line 159),
tested at the start of the list.  `\d+` is greedy; because it must be
followed by `.`, only the maximal digit run can succeed, so maximal munch is
exact.  Likewise `\s+` before the letter.  The regex carries the `i` flag, so
`[A-Z]` matches letters of either case (`Char.isAlpha`). -/
def sectionBoundaryAt : List Char → Bool
  | [] => false
  | c :: rest =>
    c.isDigit &&
      (match (c :: rest).dropWhile Char.isDigit with
       | '.' :: r2 =>
         (match r2 with
          | w :: _ =>
            w.isWhitespace &&
              (match r2.dropWhile Char.isWhitespace with
               | a :: _ => a.isAlpha
               | [] => false)
          | [] => false)
       | _ => false)

/-- First alternative `\d+\.\d+` of the subsection lookahead
(brandBible.ts line 178), tested at the start of the list. -/
def subBoundaryDigitsDotDigits : List Char → Bool
  | [] => false
  | c :: rest =>
    c.isDigit &&
      (match (c :: rest).dropWhile Char.isDigit with
       | '.' :: d :: _ => d.isDigit
       | _ => false)

/-- Second alternative `\d+\.` of the subsection lookahead. -/
def subBoundaryDigitsDot : List Char → Bool
  | [] => false
  | c :: rest =>
    c.isDigit &&
      (match (c :: rest).dropWhile Char.isDigit with
       | '.' :: _ => true
       | _ => false)

/-- Lookahead `\d+\.\d+|\d+\.` of the subsection regex. -/
def subsectionBoundaryAt (s : List Char) : Bool :=
  subBoundaryDigitsDotDigits s || subBoundaryDigitsDot s

/-- The lazy capture `([\s\S]*?)` followed by `(?=boundary|$)`: the shortest
prefix (possibly empty) ending where `stop` first matches; with no such
place, everything to the end of input (the `$` alternative). -/
def captureUntil (stop : List Char → Bool) : List Char → List Char
  | [] => []
  | c :: rest => if stop (c :: rest) then [] else c :: captureUntil stop rest

/-- Match `needle` literally but case-insensitively (the regexes carry the
`i` flag, and `escapeRegex` of brandBible.ts line 194 makes the embedded
title a literal) and return the rest of the haystack. -/
def stripCaseFold : List Char → List Char → Option (List Char)
  | [], s => some s
  | _ :: _, [] => none
  | p :: ps, c :: cs =>
    if p.toLower == c.toLower then stripCaseFold ps cs else none

/-- Match the raw subsection id (brandBible.ts line 178 interpolates
`${subId}` into the pattern WITHOUT escaping, so its `.` is the regex
wildcard matching any character) and return the rest. -/
def stripIdWildcard : List Char → List Char → Option (List Char)
  | [], s => some s
  | _ :: _, [] => none
  | p :: ps, c :: cs =>
    if p == '.' || p.toLower == c.toLower then stripIdWildcard ps cs else none

/-- Head of the section regex `${sectionNum}\.\s*${escapeRegex(name)}`
matched at the start of the list: the digits of `num`, a literal dot, a
whitespace run (`\s*`, maximal munch is exact because every taxonomy title
starts with a non-whitespace character), then the title case-insensitively.
Returns what follows the title. -/
def matchSectionHeaderAt (num name s : List Char) : Option (List Char) :=
  match stripCaseFold num s with
  | none => none
  | some s1 =>
    match s1 with
    | '.' :: s2 => stripCaseFold name (s2.dropWhile Char.isWhitespace)
    | _ => none

/-- JS `content.match(regex)` finds the leftmost start position; at a fixed
start, the lazy capture with an `…|$` lookahead always succeeds, so the
leftmost position where the header matches is the match.  Returns the
capture group. -/
def findSectionMatch (num name : List Char) : List Char → Option (List Char)
  | [] => (matchSectionHeaderAt num name []).map (captureUntil sectionBoundaryAt)
  | c :: rest =>
    match matchSectionHeaderAt num name (c :: rest) with
    | some tail => some (captureUntil sectionBoundaryAt tail)
    | none => findSectionMatch num name rest

/-- Head of the subsection regex `${subId}\s*${escapeRegex(subName)}` at the
start of the list (see `stripIdWildcard` for the unescaped id). -/
def matchSubsectionHeaderAt (idPat name s : List Char) : Option (List Char) :=
  match stripIdWildcard idPat s with
  | none => none
  | some s1 => stripCaseFold name (s1.dropWhile Char.isWhitespace)

/-- Leftmost match of the subsection regex; returns the capture group. -/
def findSubsectionMatch (idPat name : List Char) : List Char → Option (List Char)
  | [] => (matchSubsectionHeaderAt idPat name []).map (captureUntil subsectionBoundaryAt)
  | c :: rest =>
    match matchSubsectionHeaderAt idPat name (c :: rest) with
    | some tail => some (captureUntil subsectionBoundaryAt tail)
    | none => findSubsectionMatch idPat name rest

/-- The `descriptions` record literal of `getDefaultSectionDescription`
(brandBible.ts lines 201-208), as an association list. -/
def sectionDescriptions : List (String × String) :=
  [("1", "Defines SODAX's core identity, purpose, promise, values, personality, and central brand idea."),
   ("2", "Covers market positioning, audience segmentation, messaging pillars, value propositions, and competitive differentiation."),
   ("3", "SODAX is serious infrastructure. Our voice should feel calm, competent, and human. We translate complex cross-network execution into language that is clear, credible, and easy to repeat."),
   ("4", "SODAX's visual identity is adaptive, not rigid. It scales in intensity based on context, intent, and user mindset."),
   ("5", "Defines how the SODAX brand should appear across public channels with consistency of meaning while allowing platform-native expression."),
   ("6", "Defines how SODAX should be represented when it appears outside its own managed channels.")]

/-- `getDefaultSectionDescription` (brandBible.ts lines 200-211):
`descriptions[sectionNum] || "Brand guidelines content."`. -/
def getDefaultSectionDescription (sectionNum : String) : String :=
  (sectionDescriptions.lookup sectionNum).getD "Brand guidelines content."

/-- `extractSectionContent` (brandBible.ts lines 156-170): on a match, the
trimmed capture truncated to 2000 characters (`match[1].trim().slice(0, 2000)`);
otherwise the canned description. -/
def extractSectionContent (content sectionNum sectionName : String) : String :=
  match findSectionMatch sectionNum.data sectionName.data content.data with
  | some captured => String.mk ((trimChars captured).take 2000)
  | none => getDefaultSectionDescription sectionNum

/-- `extractSubsectionContent` (brandBible.ts lines 175-188): on a match, the
trimmed capture truncated to 1500 characters; otherwise the generic
placeholder naming the subsection. -/
def extractSubsectionContent (content subId subName : String) : String :=
  match findSubsectionMatch subId.data subName.data content.data with
  | some captured => String.mk ((trimChars captured).take 1500)
  | none => "Content for " ++ subName ++ ". Please refer to the full Brand Bible for details."

/-- `BrandSubsection` of src/types.ts. -/
structure BrandSubsection where
  id : String
  title : String
  content : String
deriving DecidableEq

/-- `BrandSection` of src/types.ts. -/
structure BrandSection where
  id : String
  title : String
  content : String
  subsections : List BrandSubsection
deriving DecidableEq

/-- `BrandBibleData` of src/types.ts; `fetchedAt` (a JS `Date`) is its
millisecond timestamp as a `Nat`. -/
structure BrandBibleData where
  version : String
  lastUpdated : String
  sections : List BrandSection
  rawContent : String
  fetchedAt : Nat
deriving DecidableEq

/-- `SearchResult` of src/types.ts (the optional fields are `Option`s). -/
structure SearchResult where
  sectionId : String
  sectionTitle : String
  subsectionId : Option String
  subsectionTitle : Option String
  content : String
  relevance : Nat
deriving DecidableEq

/-- `parseSections` (brandBible.ts lines 119-151): for each taxonomy section
in order, collect the subsections whose id starts with `sectionNum + "."`
(the source's push loop is this filter-map) and extract both contents. -/
def parseSections (content : String) : List BrandSection :=
  SECTION_NAMES.map (fun sec =>
    { id := sec.1
      title := sec.2
      content := extractSectionContent content sec.1 sec.2
      subsections :=
        (SUBSECTION_NAMES.filter
            (fun sub => charsPrefixOf (sec.1 ++ ".").data sub.1.data)).map
          (fun sub =>
            { id := sub.1
              title := sub.2
              content := extractSubsectionContent content sub.1 sub.2 }) })

/-- The cheerio-derived inputs of `parseBrandBible` (brandBible.ts lines
52-64): the version and lastUpdated strings extracted from `$("body").text()`
and the flattened text of `extractTextContent`.  cheerio's HTML parse is an
external collaborator, so these fields are the oracle's payload; everything
built from them is embedded from the source. -/
structure FetchedPage where
  version : String
  lastUpdated : String
  rawContent : String
deriving DecidableEq

/-- `parseBrandBible` (brandBible.ts lines 52-76) downstream of cheerio:
assemble the snapshot from the page fields and `parseSections`, stamping
`fetchedAt` with the current time `now` (`new Date()`; the source reads the
clock once per `getBrandBible` call in this model). -/
def parseBrandBible (page : FetchedPage) (now : Nat) : BrandBibleData :=
  { version := page.version
    lastUpdated := page.lastUpdated
    sections := parseSections page.rawContent
    rawContent := page.rawContent
    fetchedAt := now }

/-- The module-level mutable cache of brandBible.ts lines 18-20
(`cachedData`, `cacheTimestamp`), modelled as explicit state. -/
structure CacheState where
  cachedData : Option BrandBibleData
  cacheTimestamp : Nat
deriving DecidableEq

/-- The rebuild path of `getBrandBible` (brandBible.ts lines 224-229): on a
fetch/parse error the exception propagates and neither module variable is
assigned (the state comes back unchanged); on success both are assigned. -/
def rebuildCache (now : Nat) (fetchResult : Except String FetchedPage)
    (st : CacheState) : Except String BrandBibleData × CacheState :=
  match fetchResult with
  | Except.error e => (Except.error e, st)
  | Except.ok page =>
    let d := parseBrandBible page now
    (Except.ok d, { cachedData := some d, cacheTimestamp := now })

/-- `getBrandBible` (brandBible.ts lines 216-230): return the cached snapshot
while `cachedData` is set and `now - cacheTimestamp < CACHE_TTL_MS` (with
`Nat` subtraction a reading earlier than the stamp truncates to 0, which is
below the TTL exactly as the JS negative difference is); otherwise rebuild. -/
def getBrandBible (now : Nat) (fetchResult : Except String FetchedPage)
    (st : CacheState) : Except String BrandBibleData × CacheState :=
  match st.cachedData with
  | some data =>
    if now - st.cacheTimestamp < CACHE_TTL_MS then (Except.ok data, st)
    else rebuildCache now fetchResult st
  | none => rebuildCache now fetchResult st

/-- `clearCache` (brandBible.ts lines 346-349): `cachedData = null;
cacheTimestamp = 0`. -/
def clearCache : CacheState :=
  { cachedData := none, cacheTimestamp := 0 }

/-- The `sodax_refresh_brand_bible` handler (tools/brandBible.ts lines
461-481): `clearCache()` followed by `getBrandBible()`.  The cleared cache
has no snapshot, so the call always rebuilds. -/
def refreshBrandBible (now : Nat) (fetchResult : Except String FetchedPage) :
    Except String BrandBibleData × CacheState :=
  getBrandBible now fetchResult clearCache

/-- The lookup inside `getSection` (brandBible.ts line 237):
`data.sections.find(s => s.id === sectionId) || null`. -/
def findSection (sections : List BrandSection) (sectionId : String) :
    Option BrandSection :=
  sections.find? (fun s => s.id == sectionId)

/-- The loop inside `getSubsection` (brandBible.ts lines 246-253): scan the
sections in order, returning the first subsection with a matching id. -/
def findSubsection : List BrandSection → String → Option BrandSubsection
  | [], _ => none
  | s :: rest, subsectionId =>
    match s.subsections.find? (fun sub => sub.id == subsectionId) with
    | some sub => some sub
    | none => findSubsection rest subsectionId

/-- `getSection` (brandBible.ts lines 235-238): fetch-or-cache, then look up. -/
def getSection (now : Nat) (fetchResult : Except String FetchedPage)
    (st : CacheState) (sectionId : String) :
    Except String (Option BrandSection) × CacheState :=
  match getBrandBible now fetchResult st with
  | (Except.error e, st2) => (Except.error e, st2)
  | (Except.ok data, st2) => (Except.ok (findSection data.sections sectionId), st2)

/-- `getSubsection` (brandBible.ts lines 243-254). -/
def getSubsection (now : Nat) (fetchResult : Except String FetchedPage)
    (st : CacheState) (subsectionId : String) :
    Except String (Option BrandSubsection) × CacheState :=
  match getBrandBible now fetchResult st with
  | (Except.error e, st2) => (Except.error e, st2)
  | (Except.ok data, st2) => (Except.ok (findSubsection data.sections subsectionId), st2)

/-- The two source lines of `searchBrandBible` deriving the query terms
(brandBible.ts lines 262-263): lower-case, split on whitespace, keep terms of
length > 2. -/
def queryTermsOf (query : String) : List String :=
  (splitOnWhitespace (lowerString query)).filter (fun t => decide (2 < t.length))

/-- The record pushed for a section hit (brandBible.ts lines 273-278). -/
def sectionResult (queryTerms : List String) (s : BrandSection) : SearchResult :=
  { sectionId := s.id
    sectionTitle := s.title
    subsectionId := none
    subsectionTitle := none
    content := s.content
    relevance := calculateRelevance (s.title ++ " " ++ s.content) queryTerms }

/-- The record pushed for a subsection hit (brandBible.ts lines 289-296). -/
def subsectionResult (queryTerms : List String) (s : BrandSection)
    (sub : BrandSubsection) : SearchResult :=
  { sectionId := s.id
    sectionTitle := s.title
    subsectionId := some sub.id
    subsectionTitle := some sub.title
    content := sub.content
    relevance := calculateRelevance (sub.title ++ " " ++ sub.content) queryTerms }

/-- The encounter-order list the push loops of `searchBrandBible`
(brandBible.ts lines 265-299) walk: for each section its own candidate and
then one per subsection, before the `relevance > 0` guards filter it. -/
def searchCandidates (queryTerms : List String) (sections : List BrandSection) :
    List SearchResult :=
  sections.flatMap (fun s =>
    sectionResult queryTerms s :: s.subsections.map (subsectionResult queryTerms s))

/-- `results.sort((a, b) => b.relevance - a.relevance)` (brandBible.ts line
302): ECMAScript sort is stable and this comparator orders by descending
relevance, i.e. the stable descending sort by relevance.  Stable insertion
sort: walk past strictly greater relevances, settle before the first element
whose relevance is not greater. -/
def insertByRelevance (x : SearchResult) : List SearchResult → List SearchResult
  | [] => [x]
  | y :: ys =>
    if x.relevance < y.relevance then y :: insertByRelevance x ys
    else x :: y :: ys

/-- The stable descending sort modelling the source's `Array.prototype.sort`
call (see `insertByRelevance`). -/
def sortByRelevanceDesc : List SearchResult → List SearchResult
  | [] => []
  | x :: xs => insertByRelevance x (sortByRelevanceDesc xs)

/-- The pure core of `searchBrandBible` (brandBible.ts lines 259-305) over a
given snapshot (the source first obtains the snapshot through
`getBrandBible`, modelled separately): push a candidate for every section
and subsection with positive relevance, then sort by descending relevance.
The push-under-guard loops are the filter of the encounter-order list. -/
def searchBrandBible (data : BrandBibleData) (query : String) : List SearchResult :=
  sortByRelevanceDesc
    ((searchCandidates (queryTermsOf query) data.sections).filter
      (fun r => decide (0 < r.relevance)))

/-- `sodax_search_brand_bible` handler truncation (tools/brandBible.ts lines
380-381): `results.slice(0, params.limit)` — the only place a limit is
applied. -/
def searchToolResults (data : BrandBibleData) (query : String) (limit : Nat) :
    List SearchResult :=
  (searchBrandBible data query).take limit

/-- Not-found text of the `sodax_get_section` handler (tools/brandBible.ts
lines 185-192). -/
def sectionNotFoundText (sectionId : String) : String :=
  "Error: Section '" ++ sectionId ++ "' not found. Valid sections are 1-6."

/-- Not-found text of the `sodax_get_subsection` handler (tools/brandBible.ts
lines 295-304): it lists every valid subsection id,
`Object.keys(SUBSECTION_NAMES).join(", ")`. -/
def subsectionNotFoundText (subsectionId : String) : String :=
  "Error: Subsection '" ++ subsectionId ++ "' not found.\n\nAvailable subsections: " ++
    String.intercalate ", " (SUBSECTION_NAMES.map Prod.fst)

/-- The branch structure of the `sodax_get_section` handler: a null lookup
becomes the descriptive not-found text, a hit is rendered (rendering is
outside this model's scope, the section itself stands for it). -/
def sectionToolOutcome (sections : List BrandSection) (sectionId : String) :
    Sum String BrandSection :=
  match findSection sections sectionId with
  | none => Sum.inl (sectionNotFoundText sectionId)
  | some s => Sum.inr s

/-- The branch structure of the `sodax_get_subsection` handler. -/
def subsectionToolOutcome (sections : List BrandSection) (subsectionId : String) :
    Sum String BrandSubsection :=
  match findSubsection sections subsectionId with
  | none => Sum.inl (subsectionNotFoundText subsectionId)
  | some sub => Sum.inr sub

/-- Modelled from the claim C1 wording, for comparison with the source's
`calculateRelevance`: a term occurring in the lower-cased content is claimed
to contribute "exactly 10 plus the number of additional occurrences of t
beyond the first, capped at +5", a non-occurring term 0. -/
def claimDirectContribution (content term : String) : Nat :=
  if 1 ≤ countOccurrences (lowerString content) term then
    10 + min (countOccurrences (lowerString content) term - 1) 5
  else 0

/-- Modelled from the claim C1 wording: the total score its direct-occurrence
rule predicts, together with the keyword bonus the code adds. -/
def claimRelevance (content : String) (queryTerms : List String) : Nat :=
  (queryTerms.map (claimDirectContribution content)).sum + keywordScore content queryTerms

/-- The per-term direct-occurrence contribution the code actually grants
(the body of the first fold of `calculateRelevance`). -/
def directContribution (content term : String) : Nat :=
  if stringIncludes (lowerString content) term then
    10 + min (countOccurrences (lowerString content) term) 5
  else 0

/-- Bool check used to state C6: the section found for `sectionId` carries
that id, and its subsections are exactly the taxonomy entries whose id
starts with `sectionId + "."`, in taxonomy order. -/
def sectionSkeletonOK (content : String) (sectionId : String) : Bool :=
  match findSection (parseSections content) sectionId with
  | some sec =>
    sec.id == sectionId &&
      sec.subsections.map (fun sub => (sub.id, sub.title)) ==
        SUBSECTION_NAMES.filter
          (fun sub => charsPrefixOf (sectionId ++ ".").data sub.1.data)
  | none => false

theorem foldl_add_map_sum {α : Type} (g : α → Nat) (l : List α) (init : Nat) :
    l.foldl (fun s t => s + g t) init = init + (l.map g).sum := by
  induction l generalizing init with
  | nil => simp
  | cons a t ih =>
    rw [List.foldl_cons, ih, List.map_cons, List.sum_cons]
    omega

theorem foldl_congr_body {α β : Type} (f g : β → α → β) (l : List α) (init : β)
    (h : ∀ s t, f s t = g s t) : l.foldl f init = l.foldl g init := by
  induction l generalizing init with
  | nil => rfl
  | cons a t ih => rw [List.foldl_cons, List.foldl_cons, h, ih]

theorem map_congr_mem {α β : Type} (f g : α → β) :
    ∀ l : List α, (∀ a ∈ l, f a = g a) → l.map f = l.map g := by
  intro l
  induction l with
  | nil => intro _; rfl
  | cons a t ih =>
    intro h
    rw [List.map_cons, List.map_cons, h a (by simp), ih (fun b hb => h b (by simp [hb]))]

theorem includesChars_iff_count (needle : List Char) (hne : needle ≠ []) :
    ∀ hay : List Char,
      includesChars needle hay = true ↔ 1 ≤ countOccChars needle hay.length hay := by
  intro hay
  induction hay with
  | nil =>
    cases needle with
    | nil => exact absurd rfl hne
    | cons p ps => simp [includesChars, countOccChars]
  | cons c rest ih =>
    simp only [includesChars, countOccChars, List.length_cons, Bool.or_eq_true]
    by_cases hp : charsPrefixOf needle (c :: rest) = true
    · rw [if_pos hp]
      constructor
      · intro _
        omega
      · intro _
        exact Or.inl hp
    · rw [if_neg hp]
      constructor
      · intro h
        rcases h with h | h
        · exact absurd h hp
        · exact ih.1 h
      · intro h
        exact Or.inr (ih.2 h)

theorem string_data_eq_nil {s : String} (h : s.data = []) : s = "" := by
  cases s with
  | mk data =>
    subst h
    rfl

theorem stringIncludes_iff_count (haystack needle : String) (hne : needle ≠ "") :
    stringIncludes haystack needle = true ↔ 1 ≤ countOccurrences haystack needle := by
  have hd : needle.data ≠ [] := fun h => hne (string_data_eq_nil h)
  exact includesChars_iff_count needle.data hd haystack.data

theorem calc_rel_split (content : String) (qs : List String) :
    calculateRelevance content qs =
      (qs.map (directContribution content)).sum + keywordScore content qs := by
  unfold calculateRelevance keywordScore
  have hkw : ∀ init : Nat,
      brandKeywords.foldl
        (fun score keyword =>
          if qs.any (fun t => stringIncludes t keyword || stringIncludes keyword t) then
            if stringIncludes (lowerString content) keyword then score + 5 else score
          else score) init =
      init + (brandKeywords.map (fun keyword =>
        if qs.any (fun t => stringIncludes t keyword || stringIncludes keyword t) then
          if stringIncludes (lowerString content) keyword then 5 else 0
        else 0)).sum := by
    intro init
    rw [foldl_congr_body _
      (fun score keyword => score +
        (if qs.any (fun t => stringIncludes t keyword || stringIncludes keyword t) then
          if stringIncludes (lowerString content) keyword then 5 else 0
        else 0))]
    · exact foldl_add_map_sum _ _ _
    · intro s k
      by_cases hA : qs.any (fun t => stringIncludes t k || stringIncludes k t) = true
      · by_cases hB : stringIncludes (lowerString content) k = true <;> simp [hA, hB]
      · simp [hA]
  have hdir :
      qs.foldl
        (fun score term =>
          if stringIncludes (lowerString content) term then
            score + 10 + min (countOccurrences (lowerString content) term) 5
          else score) 0 =
      (qs.map (directContribution content)).sum := by
    rw [foldl_congr_body _ (fun score term => score + directContribution content term)]
    · rw [foldl_add_map_sum]; omega
    · intro s t
      unfold directContribution
      by_cases hI : stringIncludes (lowerString content) t = true
      · simp [hI]
        omega
      · simp [hI]
  rw [hkw, hdir, hkw 0]
  omega

theorem directContribution_count (content t : String) (hne : t ≠ "") :
    directContribution content t =
      (if 1 ≤ countOccurrences (lowerString content) t then
        10 + min (countOccurrences (lowerString content) t) 5
      else 0) := by
  unfold directContribution
  by_cases hI : stringIncludes (lowerString content) t = true
  · rw [if_pos hI, if_pos ((stringIncludes_iff_count _ t hne).1 hI)]
  · rw [if_neg hI, if_neg (fun hc => hI ((stringIncludes_iff_count _ t hne).2 hc))]

/-- C1 (counterexample): the code gives a term occurring exactly once a
direct-occurrence contribution of 11, not the claimed 10: for content
`"xyz"` and the single query term `"xyz"` (which touches no brand keyword)
`calculateRelevance` returns 11 while the claimed rule totals 10. -/
theorem c1_counterexample :
    calculateRelevance "xyz" ["xyz"] = 11 ∧ claimRelevance "xyz" ["xyz"] = 10 ∧
      calculateRelevance "xyz" ["xyz"] ≠ claimRelevance "xyz" ["xyz"] := by
  refine ⟨by decide, by decide, by decide⟩

/-- C1 (amended): for every content string and list of non-empty query
terms, `calculateRelevance` equals the sum over terms of the
direct-occurrence contribution — 10 plus the occurrence count itself capped
at 5 (hence 11 to 15) for a term occurring at least once, 0 for an absent
term — plus the keyword bonus `keywordScore`. -/
theorem c1_direct_scoring_amended (content : String) (queryTerms : List String)
    (h : ∀ t ∈ queryTerms, t ≠ "") :
    calculateRelevance content queryTerms =
      (queryTerms.map (fun t =>
        if 1 ≤ countOccurrences (lowerString content) t then
          10 + min (countOccurrences (lowerString content) t) 5
        else 0)).sum + keywordScore content queryTerms := by
  rw [calc_rel_split]
  congr 1
  congr 1
  exact map_congr_mem _ _ queryTerms (fun t ht => directContribution_count content t (h t ht))

theorem c1_direct_scoring_amended_witness :
    (∀ t ∈ ["brand"], t ≠ "") ∧
    calculateRelevance "brand brand" ["brand"] =
      ((["brand"].map (fun t =>
        if 1 ≤ countOccurrences (lowerString "brand brand") t then
          10 + min (countOccurrences (lowerString "brand brand") t) 5
        else 0)).sum + keywordScore "brand brand" ["brand"]) :=
  ⟨by decide, c1_direct_scoring_amended "brand brand" ["brand"] (by decide)⟩

/-- C2: from a state holding a snapshot `d` stored at time `ts` (a stored
snapshot carries `fetchedAt = ts`), a `getBrandBible` call within the TTL
returns the identical snapshot (same `fetchedAt`) and leaves the state
untouched, without consulting the fetcher; a call at or past the TTL
rebuilds, stores and returns a snapshot stamped with the later clock
reading, whose `fetchedAt` is strictly newer than `d`'s. -/
theorem c2_cache_ttl (d : BrandBibleData) (ts now2 now3 : Nat)
    (fetch2 : Except String FetchedPage) (page3 : FetchedPage)
    (hfa : d.fetchedAt = ts)
    (h2 : now2 - ts < CACHE_TTL_MS)
    (h3 : CACHE_TTL_MS ≤ now3 - ts) :
    getBrandBible now2 fetch2 ⟨some d, ts⟩ = (Except.ok d, ⟨some d, ts⟩) ∧
    getBrandBible now3 (Except.ok page3) ⟨some d, ts⟩ =
      (Except.ok (parseBrandBible page3 now3),
       ⟨some (parseBrandBible page3 now3), now3⟩) ∧
    d.fetchedAt < (parseBrandBible page3 now3).fetchedAt := by
  refine ⟨?_, ?_, ?_⟩
  · show (if now2 - ts < CACHE_TTL_MS then (Except.ok d, (⟨some d, ts⟩ : CacheState))
      else rebuildCache now2 fetch2 ⟨some d, ts⟩) = (Except.ok d, ⟨some d, ts⟩)
    rw [if_pos h2]
  · show (if now3 - ts < CACHE_TTL_MS
        then (Except.ok d, (⟨some d, ts⟩ : CacheState))
        else rebuildCache now3 (Except.ok page3) ⟨some d, ts⟩) =
      (Except.ok (parseBrandBible page3 now3),
       ⟨some (parseBrandBible page3 now3), now3⟩)
    rw [if_neg (not_lt.2 h3)]
    rfl
  · show d.fetchedAt < now3
    have hT : CACHE_TTL_MS = 300000 := rfl
    omega

theorem c2_cache_ttl_witness :
    ((parseBrandBible ⟨"v", "lu", ""⟩ 0).fetchedAt = 0 ∧
     (1 : Nat) - 0 < CACHE_TTL_MS ∧ CACHE_TTL_MS ≤ CACHE_TTL_MS - 0) ∧
    (getBrandBible 1 (Except.error "down")
        ⟨some (parseBrandBible ⟨"v", "lu", ""⟩ 0), 0⟩ =
      (Except.ok (parseBrandBible ⟨"v", "lu", ""⟩ 0),
       ⟨some (parseBrandBible ⟨"v", "lu", ""⟩ 0), 0⟩) ∧
     getBrandBible CACHE_TTL_MS (Except.ok ⟨"w", "lu2", ""⟩)
        ⟨some (parseBrandBible ⟨"v", "lu", ""⟩ 0), 0⟩ =
      (Except.ok (parseBrandBible ⟨"w", "lu2", ""⟩ CACHE_TTL_MS),
       ⟨some (parseBrandBible ⟨"w", "lu2", ""⟩ CACHE_TTL_MS), CACHE_TTL_MS⟩) ∧
     (parseBrandBible ⟨"v", "lu", ""⟩ 0).fetchedAt <
       (parseBrandBible ⟨"w", "lu2", ""⟩ CACHE_TTL_MS).fetchedAt) :=
  ⟨⟨rfl, by decide, by decide⟩,
   c2_cache_ttl (parseBrandBible ⟨"v", "lu", ""⟩ 0) 0 1 CACHE_TTL_MS
     (Except.error "down") ⟨"w", "lu2", ""⟩ rfl (by decide) (by decide)⟩

/-- C3: when `getBrandBible` must rebuild (no snapshot, or the TTL has
elapsed) and the fetch/parse oracle raises, the call returns that very error
and the cache state — previous snapshot and timestamp — is exactly the one
it started from. -/
theorem c3_failed_rebuild (now : Nat) (e : String) (st : CacheState)
    (h : st.cachedData = none ∨ CACHE_TTL_MS ≤ now - st.cacheTimestamp) :
    getBrandBible now (Except.error e) st = (Except.error e, st) := by
  obtain ⟨cd, ts⟩ := st
  cases cd with
  | none => rfl
  | some d =>
    rcases h with h | h
    · exact absurd h (by simp)
    · show (if now - ts < CACHE_TTL_MS then (Except.ok d, (⟨some d, ts⟩ : CacheState))
        else rebuildCache now (Except.error e) ⟨some d, ts⟩) = (Except.error e, ⟨some d, ts⟩)
      rw [if_neg (not_lt.2 h)]
      rfl

theorem c3_failed_rebuild_witness :
    ((⟨none, 0⟩ : CacheState).cachedData = none ∨
      CACHE_TTL_MS ≤ 7 - (⟨none, 0⟩ : CacheState).cacheTimestamp) ∧
    getBrandBible 7 (Except.error "boom") ⟨none, 0⟩ =
      (Except.error "boom", ⟨none, 0⟩) :=
  ⟨Or.inl rfl, c3_failed_rebuild 7 "boom" ⟨none, 0⟩ (Or.inl rfl)⟩

/-- C8 (amended): a successful `refresh` (clearCache then getBrandBible, the
cleared cache always rebuilds) returns and stores a snapshot whose
`fetchedAt` is exactly the refresh call's clock reading `now`; it is
strictly greater than the replaced snapshot's `fetchedAt` precisely when the
clock reading has strictly advanced past it — the code itself does not force
strictness. -/
theorem c8_refresh_clock (now : Nat) (page : FetchedPage) (dOld : BrandBibleData) :
    refreshBrandBible now (Except.ok page) =
      (Except.ok (parseBrandBible page now),
       ⟨some (parseBrandBible page now), now⟩) ∧
    (dOld.fetchedAt < (parseBrandBible page now).fetchedAt ↔ dOld.fetchedAt < now) :=
  ⟨rfl, Iff.rfl⟩

/-- C8 (counterexample): with a snapshot fetched at clock reading 5 in the
cache, a refresh whose `getBrandBible` call also reads clock 5 succeeds and
replaces it with a snapshot whose `fetchedAt` equals — is not strictly
greater than — the old one's. -/
theorem c8_refresh_counterexample :
    (⟨some (parseBrandBible ⟨"v1", "lu1", "doc1"⟩ 5), 5⟩ : CacheState).cachedData =
      some (parseBrandBible ⟨"v1", "lu1", "doc1"⟩ 5) ∧
    refreshBrandBible 5 (Except.ok ⟨"v2", "lu2", "doc2"⟩) =
      (Except.ok (parseBrandBible ⟨"v2", "lu2", "doc2"⟩ 5),
       ⟨some (parseBrandBible ⟨"v2", "lu2", "doc2"⟩ 5), 5⟩) ∧
    ¬ ((parseBrandBible ⟨"v1", "lu1", "doc1"⟩ 5).fetchedAt <
        (parseBrandBible ⟨"v2", "lu2", "doc2"⟩ 5).fetchedAt) :=
  ⟨rfl, rfl, by decide⟩

theorem lookup_mem_values {α β : Type} [BEq α] :
    ∀ (l : List (α × β)) (k : α) (v : β), l.lookup k = some v → v ∈ l.map Prod.snd := by
  intro l
  induction l with
  | nil => intro k v h; exact absurd h (by simp [List.lookup])
  | cons p t ih =>
    intro k v h
    obtain ⟨a, b⟩ := p
    rw [List.map_cons]
    simp only [List.lookup] at h
    by_cases hk : (k == a) = true
    · simp only [hk] at h
      exact List.mem_cons.2 (Or.inl (Option.some.inj h).symm)
    · simp only [Bool.not_eq_true] at hk
      simp only [hk] at h
      exact List.mem_cons.2 (Or.inr (ih k v h))

theorem getDefaultSectionDescription_ne_empty (sectionNum : String) :
    getDefaultSectionDescription sectionNum ≠ "" := by
  unfold getDefaultSectionDescription
  cases h : sectionDescriptions.lookup sectionNum with
  | none => decide
  | some v =>
    have hall : ∀ s ∈ sectionDescriptions.map Prod.snd, s ≠ "" := by decide
    exact hall v (lookup_mem_values sectionDescriptions sectionNum v h)

theorem getDefaultSectionDescription_length_le (sectionNum : String) :
    (getDefaultSectionDescription sectionNum).length ≤ 2000 := by
  unfold getDefaultSectionDescription
  cases h : sectionDescriptions.lookup sectionNum with
  | none => decide
  | some v =>
    have hall : ∀ s ∈ sectionDescriptions.map Prod.snd, s.length ≤ 2000 := by decide
    exact hall v (lookup_mem_values sectionDescriptions sectionNum v h)

theorem mk_take_length_le (l : List Char) (n : Nat) :
    (String.mk (l.take n)).length ≤ n := by
  show (l.take n).length ≤ n
  rw [List.length_take]
  exact min_le_left _ _

theorem string_length_append (a b : String) :
    (a ++ b).length = a.length + b.length := by
  obtain ⟨la⟩ := a
  obtain ⟨lb⟩ := b
  show (la ++ lb).length = la.length + lb.length
  exact List.length_append la lb

theorem extractSectionContent_length_le (content sectionNum sectionName : String) :
    (extractSectionContent content sectionNum sectionName).length ≤ 2000 := by
  unfold extractSectionContent
  split
  · exact mk_take_length_le _ _
  · exact getDefaultSectionDescription_length_le sectionNum

theorem extractSubsectionContent_length_le (content subId subName : String)
    (hmem : subName ∈ SUBSECTION_NAMES.map Prod.snd) :
    (extractSubsectionContent content subId subName).length ≤ 1500 := by
  unfold extractSubsectionContent
  split
  · exact mk_take_length_le _ _
  · have hall : ∀ nm ∈ SUBSECTION_NAMES.map Prod.snd,
        ("Content for " ++ nm ++
          ". Please refer to the full Brand Bible for details.").length ≤ 1500 := by
      decide
    exact hall subName hmem

/-- C4 (counterexample): segmentation can return an empty section body.  On
the flattened text `"1. Brand Essence and Foundations"` the section-1
pattern matches with an empty capture, so the pipeline's first section has
`content = ""` — the trimmed captured text of a successful match IS the
empty string here. -/
theorem c4_counterexample :
    findSectionMatch "1".data "Brand Essence and Foundations".data
        "1. Brand Essence and Foundations".data = some [] ∧
    (parseSections "1. Brand Essence and Foundations").head?.map (fun s => s.content) =
      some "" := by
  refine ⟨by decide, by decide⟩

/-- C4 (amended): when the pattern does NOT match, the substituted fallback
(the canned section description, or the placeholder naming the subsection)
is never empty; when the pattern matches, the returned content is the
trimmed capture, which CAN be empty (see the counterexample). -/
theorem c4_fallback_nonempty (content sectionNum sectionName subId subName : String) :
    (findSectionMatch sectionNum.data sectionName.data content.data = none →
      extractSectionContent content sectionNum sectionName ≠ "") ∧
    (findSubsectionMatch subId.data subName.data content.data = none →
      extractSubsectionContent content subId subName ≠ "") := by
  constructor
  · intro h
    unfold extractSectionContent
    rw [h]
    exact getDefaultSectionDescription_ne_empty sectionNum
  · intro h
    unfold extractSubsectionContent
    rw [h]
    show ("Content for " ++ subName ++
      ". Please refer to the full Brand Bible for details.") ≠ ""
    intro heq
    have hlen := congrArg String.length heq
    rw [string_length_append, string_length_append] at hlen
    have h1 : ("Content for " : String).length = 12 := rfl
    have h3 : ("" : String).length = 0 := rfl
    rw [h1, h3] at hlen
    omega

theorem c4_fallback_nonempty_witness :
    (findSectionMatch "1".data "Brand Essence and Foundations".data "zzz".data = none ∧
     extractSectionContent "zzz" "1" "Brand Essence and Foundations" ≠ "") ∧
    (findSubsectionMatch "1.1".data "Brand Overview".data "zzz".data = none ∧
     extractSubsectionContent "zzz" "1.1" "Brand Overview" ≠ "") :=
  ⟨⟨by decide,
    (c4_fallback_nonempty "zzz" "1" "Brand Essence and Foundations" "1.1" "Brand Overview").1
      (by decide)⟩,
   ⟨by decide,
    (c4_fallback_nonempty "zzz" "1" "Brand Essence and Foundations" "1.1" "Brand Overview").2
      (by decide)⟩⟩

/-- C6: for each valid section id, the section found in the pipeline's
output carries that id, and its subsections are exactly the taxonomy entries
prefixed by the id and a dot, in taxonomy order — whatever the flattened
input text. -/
theorem c6_section_skeleton (content : String) :
    (sectionSkeletonOK content "1" && sectionSkeletonOK content "2" &&
     sectionSkeletonOK content "3" && sectionSkeletonOK content "4" &&
     sectionSkeletonOK content "5" && sectionSkeletonOK content "6") = true := rfl

/-- C7: every section content the pipeline produces has length at most 2000
and every subsection content at most 1500 — in the match branches because of
the explicit `slice`, in the fallback branches because every canned text is
that short. -/
theorem c7_content_length_bounds (content : String) :
    ((parseSections content).all (fun s =>
      decide (s.content.length ≤ 2000) &&
        s.subsections.all (fun sub => decide (sub.content.length ≤ 1500)))) = true := by
  rw [List.all_eq_true]
  intro s hs
  unfold parseSections at hs
  obtain ⟨p, hp, rfl⟩ := List.mem_map.1 hs
  rw [Bool.and_eq_true]
  constructor
  · exact decide_eq_true (extractSectionContent_length_le content p.1 p.2)
  · rw [List.all_eq_true]
    intro sub hsub
    obtain ⟨q, hq, rfl⟩ := List.mem_map.1 hsub
    have hq2 : q ∈ SUBSECTION_NAMES := List.mem_of_mem_filter hq
    exact decide_eq_true
      (extractSubsectionContent_length_le content q.1 q.2
        (List.mem_map_of_mem Prod.snd hq2))

theorem parseSections_id_mem (content : String) :
    ∀ s ∈ parseSections content, s.id ∈ SECTION_NAMES.map Prod.fst := by
  intro s hs
  unfold parseSections at hs
  obtain ⟨p, hp, rfl⟩ := List.mem_map.1 hs
  exact List.mem_map_of_mem Prod.fst hp

theorem findSubsection_eq_none (subId : String) :
    ∀ sections : List BrandSection,
      (∀ s ∈ sections, ∀ sub ∈ s.subsections, sub.id ≠ subId) →
      findSubsection sections subId = none := by
  intro sections
  induction sections with
  | nil => intro _; rfl
  | cons s rest ih =>
    intro h
    have hfind : s.subsections.find? (fun sub => sub.id == subId) = none := by
      rw [List.find?_eq_none]
      intro sub hsub
      simp only [beq_iff_eq]
      exact h s (List.mem_cons_self s rest) sub hsub
    simp only [findSubsection, hfind]
    exact ih (fun s2 hs2 sub hsub => h s2 (List.mem_cons_of_mem s hs2) sub hsub)

/-- C9: an id outside the taxonomy makes `getSection` / `getSubsection` come
back with a null result rather than an exception, and the tool handlers turn
it into the descriptive not-found texts (`sectionNotFoundText` names the
valid range 1-6, `subsectionNotFoundText` lists every valid subsection id). -/
theorem c9_invalid_id_not_found (content sectionId subsectionId : String)
    (hs : sectionId ∉ SECTION_NAMES.map Prod.fst)
    (hb : subsectionId ∉ SUBSECTION_NAMES.map Prod.fst) :
    findSection (parseSections content) sectionId = none ∧
    sectionToolOutcome (parseSections content) sectionId =
      Sum.inl (sectionNotFoundText sectionId) ∧
    findSubsection (parseSections content) subsectionId = none ∧
    subsectionToolOutcome (parseSections content) subsectionId =
      Sum.inl (subsectionNotFoundText subsectionId) := by
  have hfs : findSection (parseSections content) sectionId = none := by
    unfold findSection
    rw [List.find?_eq_none]
    intro s hsmem
    simp only [beq_iff_eq]
    intro heq
    exact hs (heq ▸ parseSections_id_mem content s hsmem)
  have hsub : ∀ s ∈ parseSections content, ∀ sub ∈ s.subsections, sub.id ≠ subsectionId := by
    intro s hsmem sub hsubmem heq
    unfold parseSections at hsmem
    obtain ⟨p, hp, rfl⟩ := List.mem_map.1 hsmem
    obtain ⟨q, hq, rfl⟩ := List.mem_map.1 hsubmem
    exact hb (heq ▸ List.mem_map_of_mem Prod.fst (List.mem_of_mem_filter hq))
  have hfsub := findSubsection_eq_none subsectionId (parseSections content) hsub
  refine ⟨hfs, ?_, hfsub, ?_⟩
  · unfold sectionToolOutcome
    rw [hfs]
  · unfold subsectionToolOutcome
    rw [hfsub]

theorem c9_invalid_id_not_found_witness :
    (("9" ∉ SECTION_NAMES.map Prod.fst) ∧ ("3.99" ∉ SUBSECTION_NAMES.map Prod.fst)) ∧
    (findSection (parseSections "doc") "9" = none ∧
     sectionToolOutcome (parseSections "doc") "9" = Sum.inl (sectionNotFoundText "9") ∧
     findSubsection (parseSections "doc") "3.99" = none ∧
     subsectionToolOutcome (parseSections "doc") "3.99" =
       Sum.inl (subsectionNotFoundText "3.99")) :=
  ⟨⟨by decide, by decide⟩,
   c9_invalid_id_not_found "doc" "9" "3.99" (by decide) (by decide)⟩

theorem calculateRelevance_nil (content : String) :
    calculateRelevance content [] = 0 := rfl

/-- C10: a query all of whose whitespace-split pieces have length at most 2
(the empty query among them, since it splits into a single empty piece)
leaves no query terms after the filter, every relevance score is 0, and
`searchBrandBible` returns the empty ranked list. -/
theorem c10_short_query_empty (data : BrandBibleData) (query : String)
    (h : ∀ t ∈ splitOnWhitespace (lowerString query), t.length ≤ 2) :
    searchBrandBible data query = [] := by
  have hq : queryTermsOf query = [] := by
    unfold queryTermsOf
    rw [List.filter_eq_nil_iff]
    intro t ht
    simp only [decide_eq_true_eq]
    exact Nat.not_lt.2 (h t ht)
  unfold searchBrandBible
  rw [hq]
  have hz : (searchCandidates [] data.sections).filter
      (fun r => decide (0 < r.relevance)) = [] := by
    rw [List.filter_eq_nil_iff]
    intro r hr
    unfold searchCandidates at hr
    rw [List.mem_flatMap] at hr
    obtain ⟨s, hsmem, hr⟩ := hr
    rcases List.mem_cons.1 hr with rfl | hr
    · simp [sectionResult, calculateRelevance_nil]
    · obtain ⟨sub, hsubmem, rfl⟩ := List.mem_map.1 hr
      simp [subsectionResult, calculateRelevance_nil]
  rw [hz]
  rfl

theorem c10_short_query_empty_witness :
    (∀ t ∈ splitOnWhitespace (lowerString "a b"), t.length ≤ 2) ∧
    searchBrandBible (parseBrandBible ⟨"v", "lu", "brand voice"⟩ 0) "a b" = [] :=
  ⟨by decide,
   c10_short_query_empty (parseBrandBible ⟨"v", "lu", "brand voice"⟩ 0) "a b" (by decide)⟩

theorem insertByRelevance_perm (x : SearchResult) (l : List SearchResult) :
    List.Perm (insertByRelevance x l) (x :: l) := by
  induction l with
  | nil => exact List.Perm.refl _
  | cons y ys ih =>
    simp only [insertByRelevance]
    by_cases h : x.relevance < y.relevance
    · rw [if_pos h]
      exact (ih.cons y).trans (List.Perm.swap x y ys)
    · rw [if_neg h]

theorem sortByRelevanceDesc_perm (l : List SearchResult) :
    List.Perm (sortByRelevanceDesc l) l := by
  induction l with
  | nil => exact List.Perm.refl _
  | cons x xs ih =>
    simp only [sortByRelevanceDesc]
    exact (insertByRelevance_perm x (sortByRelevanceDesc xs)).trans (ih.cons x)

theorem insertByRelevance_pairwise (x : SearchResult) (l : List SearchResult)
    (h : l.Pairwise (fun a b => b.relevance ≤ a.relevance)) :
    (insertByRelevance x l).Pairwise (fun a b => b.relevance ≤ a.relevance) := by
  induction l with
  | nil => simp [insertByRelevance]
  | cons y ys ih =>
    rw [List.pairwise_cons] at h
    obtain ⟨hy, hys⟩ := h
    simp only [insertByRelevance]
    by_cases hcmp : x.relevance < y.relevance
    · rw [if_pos hcmp, List.pairwise_cons]
      refine ⟨?_, ih hys⟩
      intro b hb
      rcases List.mem_cons.1 ((insertByRelevance_perm x ys).mem_iff.1 hb) with rfl | hb
      · exact Nat.le_of_lt hcmp
      · exact hy b hb
    · rw [if_neg hcmp, List.pairwise_cons]
      refine ⟨?_, List.Pairwise.cons hy hys⟩
      intro b hb
      rcases List.mem_cons.1 hb with rfl | hb
      · exact Nat.le_of_not_lt hcmp
      · exact le_trans (hy b hb) (Nat.le_of_not_lt hcmp)

theorem sortByRelevanceDesc_sorted (l : List SearchResult) :
    (sortByRelevanceDesc l).Pairwise (fun a b => b.relevance ≤ a.relevance) := by
  induction l with
  | nil => exact List.Pairwise.nil
  | cons x xs ih => exact insertByRelevance_pairwise x _ ih

theorem insertByRelevance_filter (v : Nat) (x : SearchResult) (l : List SearchResult) :
    (insertByRelevance x l).filter (fun r => r.relevance == v) =
      if x.relevance == v then x :: l.filter (fun r => r.relevance == v)
      else l.filter (fun r => r.relevance == v) := by
  induction l with
  | nil => simp [insertByRelevance, List.filter_cons]
  | cons y ys ih =>
    simp only [insertByRelevance]
    by_cases hcmp : x.relevance < y.relevance
    · rw [if_pos hcmp, List.filter_cons, List.filter_cons, ih]
      by_cases hxv : (x.relevance == v) = true
      · by_cases hyv : (y.relevance == v) = true
        · exfalso
          rw [beq_iff_eq] at hxv hyv
          omega
        · simp [hxv, hyv]
      · by_cases hyv : (y.relevance == v) = true
        · simp [hxv, hyv]
        · simp [hxv, hyv]
    · rw [if_neg hcmp, List.filter_cons]

theorem sortByRelevanceDesc_filter (v : Nat) (l : List SearchResult) :
    (sortByRelevanceDesc l).filter (fun r => r.relevance == v) =
      l.filter (fun r => r.relevance == v) := by
  induction l with
  | nil => rfl
  | cons x xs ih =>
    simp only [sortByRelevanceDesc]
    rw [insertByRelevance_filter, List.filter_cons]
    by_cases hxv : (x.relevance == v) = true
    · rw [if_pos hxv, if_pos hxv, ih]
    · rw [if_neg hxv, if_neg hxv, ih]

theorem searchBrandBible_positive (data : BrandBibleData) (query : String) :
    ((searchBrandBible data query).all (fun r => decide (0 < r.relevance))) = true := by
  rw [List.all_eq_true]
  intro r hr
  have hr2 : r ∈ (searchCandidates (queryTermsOf query) data.sections).filter
      (fun r => decide (0 < r.relevance)) :=
    (sortByRelevanceDesc_perm _).mem_iff.1 hr
  exact (List.mem_filter.1 hr2).2

/-- C5: for every snapshot and query, `searchBrandBible` returns a
permutation of exactly the positive-relevance entries of the encounter-order
candidate list (each section before its own subsections, all in snapshot
order), every returned entry has positive relevance, the list is sorted by
descending relevance, entries of equal relevance keep their encounter order
(the filter by any fixed relevance value is unchanged by the sort), and the
caller-supplied limit is applied only by the tool handler's `take`, never
inside `searchBrandBible` itself. -/
theorem c5_search_ranking (data : BrandBibleData) (query : String) (limit : Nat) :
    List.Perm (searchBrandBible data query)
      ((searchCandidates (queryTermsOf query) data.sections).filter
        (fun r => decide (0 < r.relevance))) ∧
    ((searchBrandBible data query).all (fun r => decide (0 < r.relevance))) = true ∧
    (searchBrandBible data query).Pairwise (fun a b => b.relevance ≤ a.relevance) ∧
    (∀ v : Nat,
      (searchBrandBible data query).filter (fun r => r.relevance == v) =
        ((searchCandidates (queryTermsOf query) data.sections).filter
          (fun r => decide (0 < r.relevance))).filter (fun r => r.relevance == v)) ∧
    searchToolResults data query limit = (searchBrandBible data query).take limit :=
  ⟨sortByRelevanceDesc_perm _,
   searchBrandBible_positive data query,
   sortByRelevanceDesc_sorted _,
   fun v => sortByRelevanceDesc_filter v _,
   rfl⟩
